import Mathlib

/-!
Shallow embedding of the Boggle server's room/session registry:
`GameService.cs`, the hub request handlers (`GameHub`), and the data model
(`GameModels.cs`).  Dictionaries are embedded as insertion-ordered
association lists; the random room-code and board draws are passed in as
explicit parameters (`generatedId`, `generatedBoard`), and the wall clock
as an explicit `now : Nat` (seconds).
-/

abbrev Board := List (List Char)

def blankBoard : Board := List.replicate 4 (List.replicate 4 (Char.ofNat 0))

inductive GameState where
  | Waiting
  | InProgress
  | Finished
deriving DecidableEq, Repr

structure Player where
  connectionId : String
  username : String
  score : Nat
  foundWords : List String
  isReady : Bool
deriving DecidableEq, Repr

/-- `new Player { ConnectionId = cid, Username = username }` with C# defaults. -/
def mkPlayer (cid username : String) : Player :=
  { connectionId := cid, username := username, score := 0, foundWords := [], isReady := false }

structure GameRoom where
  roomId : String
  roomName : String
  hostConnectionId : String
  players : List (String × Player)
  board : Board
  state : GameState
  gameStartTime : Option Nat
  gameDurationSeconds : Nat
deriving DecidableEq, Repr

structure GameService where
  rooms : List (String × GameRoom)
  playerRooms : List (String × String)
deriving DecidableEq, Repr

def emptyService : GameService := { rooms := [], playerRooms := [] }

/-- Dictionary lookup (`TryGetValue`). -/
def alookup {α : Type} : List (String × α) → String → Option α
  | [], _ => none
  | (k, v) :: t, k' => if k' = k then some v else alookup t k'

/-- Dictionary indexer assignment (`dict[k] = v`): update in place, else
append.  This models lookup/membership exactly; as an enumeration-order model
it is exact only while no freed slot has been reused (.NET `Dictionary`
reuses slots freed by `Remove`) — the slot-level behaviour relevant to host
succession is modelled separately by `Slots` below. -/
def aset {α : Type} : List (String × α) → String → α → List (String × α)
  | [], k, v => [(k, v)]
  | (k1, v1) :: t, k, v => if k1 = k then (k, v) :: t else (k1, v1) :: aset t k v

/-- Dictionary key removal (`Remove` / `TryRemove`). -/
def aremove {α : Type} (l : List (String × α)) (k : String) : List (String × α) :=
  l.filter (fun p => decide (p.1 ≠ k))

/-- `.ToUpper()` / the normalisation behind `OrdinalIgnoreCase`, written over
the character list so that it evaluates by kernel reduction. -/
def strUpper (s : String) : String := ⟨s.data.map Char.toUpper⟩

/-- `GameService.CreateRoom`, with the result of `GenerateRoomId()` passed in. -/
def createRoom (svc : GameService) (roomName hostConnectionId hostUsername generatedId : String) :
    GameService × GameRoom :=
  let room : GameRoom :=
    { roomId := generatedId, roomName := roomName, hostConnectionId := hostConnectionId,
      players := [(hostConnectionId, mkPlayer hostConnectionId hostUsername)],
      board := blankBoard, state := .Waiting, gameStartTime := none, gameDurationSeconds := 180 }
  ({ rooms := aset svc.rooms generatedId room,
     playerRooms := aset svc.playerRooms hostConnectionId generatedId }, room)

/-- `GameService.JoinRoom`. -/
def joinRoom (svc : GameService) (roomId connectionId username : String) :
    GameService × (Bool × String × Option GameRoom) :=
  match alookup svc.rooms roomId with
  | none => (svc, (false, "Room not found", none))
  | some room =>
    if room.state ≠ GameState.Waiting then
      (svc, (false, "Game already in progress", none))
    else if room.players.length ≥ 8 then
      (svc, (false, "Room is full", none))
    else if room.players.any (fun kp => strUpper kp.2.username == strUpper username) then
      (svc, (false, "Username already taken in this room", none))
    else
      let room' := { room with
        players := aset room.players connectionId (mkPlayer connectionId username) }
      ({ rooms := aset svc.rooms roomId room',
         playerRooms := aset svc.playerRooms connectionId roomId },
       (true, "Joined successfully", some room'))

/-- `GameService.LeaveRoom`.  Note the index entry is removed (`TryRemove`)
before the room lookup, exactly as in the source. -/
def leaveRoom (svc : GameService) (connectionId : String) :
    GameService × (Bool × Option GameRoom × Option String) :=
  match alookup svc.playerRooms connectionId with
  | none => (svc, (false, none, none))
  | some roomId =>
    let playerRooms' := aremove svc.playerRooms connectionId
    match alookup svc.rooms roomId with
    | none => ({ svc with playerRooms := playerRooms' }, (false, none, none))
    | some room =>
      match aremove room.players connectionId with
      | [] =>
        ({ rooms := aremove svc.rooms roomId, playerRooms := playerRooms' }, (true, none, none))
      | (k, p) :: rest =>
        if room.hostConnectionId = connectionId then
          let room2 := { room with players := (k, p) :: rest, hostConnectionId := k }
          ({ rooms := aset svc.rooms roomId room2, playerRooms := playerRooms' },
           (true, some room2, some k))
        else
          let room1 := { room with players := (k, p) :: rest }
          ({ rooms := aset svc.rooms roomId room1, playerRooms := playerRooms' },
           (true, some room1, none))

/-- `GameService.GetRoom`. -/
def getRoom (svc : GameService) (roomId : String) : Option GameRoom :=
  alookup svc.rooms roomId

/-- `GameService.GetRoomByConnectionId`. -/
def getRoomByConnectionId (svc : GameService) (connectionId : String) : Option GameRoom :=
  match alookup svc.playerRooms connectionId with
  | none => none
  | some roomId => getRoom svc roomId

/-- `GameService.StartGame`, with the generated board and current time passed in.
The room object is mutated in place in the source; here the updated room is
written back at the key it was found under. -/
def startGame (svc : GameService) (connectionId : String) (generatedBoard : Board) (now : Nat) :
    GameService × (Bool × String × Option GameRoom) :=
  match alookup svc.playerRooms connectionId with
  | none => (svc, (false, "Room not found", none))
  | some roomId =>
    match alookup svc.rooms roomId with
    | none => (svc, (false, "Room not found", none))
    | some room =>
      if room.hostConnectionId ≠ connectionId then
        (svc, (false, "Only the host can start the game", none))
      else if room.players.length < 1 then
        (svc, (false, "Need at least 1 player to start", none))
      else
        let room' := { room with
          board := generatedBoard, state := GameState.InProgress, gameStartTime := some now,
          players := room.players.map (fun kp =>
            (kp.1, { kp.2 with score := 0, foundWords := [] })) }
        ({ svc with rooms := aset svc.rooms roomId room' }, (true, "Game started", some room'))

structure PlayerDto where
  username : String
  score : Nat
  isReady : Bool
  isHost : Bool
deriving DecidableEq, Repr

structure GameStateDto where
  roomId : String
  roomName : String
  players : List PlayerDto
  board : Option Board
  state : GameState
  remainingSeconds : Option Int
deriving DecidableEq, Repr

/-- `GameService.GetGameState`. -/
def getGameState (svc : GameService) (roomId : String) (now : Nat) : Option GameStateDto :=
  match getRoom svc roomId with
  | none => none
  | some room =>
    let remainingSeconds : Option Int :=
      match room.state, room.gameStartTime with
      | GameState.InProgress, some t0 =>
        some (max 0 ((room.gameDurationSeconds : Int) - ((now : Int) - (t0 : Int))))
      | _, _ => none
    some { roomId := room.roomId, roomName := room.roomName, state := room.state,
           board := if room.state = GameState.InProgress then some room.board else none,
           remainingSeconds := remainingSeconds,
           players := room.players.map (fun kp =>
             { username := kp.2.username, score := kp.2.score, isReady := kp.2.isReady,
               isHost := decide (kp.2.connectionId = room.hostConnectionId) }) }

/-- `GameService.EndGame`. -/
def endGame (svc : GameService) (roomId : String) : GameService :=
  match alookup svc.rooms roomId with
  | none => svc
  | some room =>
    { svc with rooms := aset svc.rooms roomId ({ room with state := GameState.Finished }) }

/-- `GameService.ResetRoom`. -/
def resetRoom (svc : GameService) (roomId : String) : GameService :=
  match alookup svc.rooms roomId with
  | none => svc
  | some room =>
    let room' := { room with
      state := GameState.Waiting
      board := blankBoard
      gameStartTime := none
      players := room.players.map (fun kp =>
        (kp.1, { kp.2 with score := 0, foundWords := [], isReady := false })) }
    { svc with rooms := aset svc.rooms roomId room' }

inductive SubmitOutcome where
  | failure (message : String)
  | success (score : Nat)
  | keyNotFound
deriving DecidableEq, Repr

/-- `GameHub.SubmitWord` (state-relevant part).  `keyNotFound` models the
unhandled `KeyNotFoundException` of `room.Players[Context.ConnectionId]`. -/
def submitWord (svc : GameService) (connectionId word : String) : GameService × SubmitOutcome :=
  match alookup svc.playerRooms connectionId with
  | none => (svc, .failure "Game not in progress")
  | some roomId =>
    match alookup svc.rooms roomId with
    | none => (svc, .failure "Game not in progress")
    | some room =>
      if room.state ≠ GameState.InProgress then
        (svc, .failure "Game not in progress")
      else
        match alookup room.players connectionId with
        | none => (svc, .keyNotFound)
        | some player =>
          if player.foundWords.contains (strUpper word) then
            (svc, .success player.score)
          else
            let player' := { player with
              foundWords := player.foundWords ++ [strUpper word]
              score := player.score + max 1 (word.length - 2) }
            let room' := { room with players := aset room.players connectionId player' }
            ({ svc with rooms := aset svc.rooms roomId room' }, .success player'.score)

/-- `GameHub.ResetGame` (state-relevant part): host check, then `ResetRoom`. -/
def resetGame (svc : GameService) (connectionId : String) : GameService × Bool :=
  match alookup svc.playerRooms connectionId with
  | none => (svc, false)
  | some roomId =>
    match alookup svc.rooms roomId with
    | none => (svc, false)
    | some room =>
      if room.hostConnectionId = connectionId then (resetRoom svc room.roomId, true)
      else (svc, false)

/-- `GameHub.EndGameInternal`: the round-end timer's action.  The boolean
reports whether the `GameEnded` broadcast was sent. -/
def endGameInternal (svc : GameService) (roomId : String) : GameService × Bool :=
  match getRoom svc roomId with
  | none => (svc, false)
  | some room =>
    if room.state ≠ GameState.InProgress then (svc, false)
    else (endGame svc roomId, true)

/-- The registry operations reachable from the outside. -/
inductive Op where
  | create (roomName hostConnectionId hostUsername generatedId : String)
  | join (roomId connectionId username : String)
  | leave (connectionId : String)
  | start (connectionId : String) (generatedBoard : Board) (now : Nat)
  | reset (connectionId : String)
  | submit (connectionId word : String)
deriving Repr

def applyOp (svc : GameService) : Op → GameService
  | .create n c u g => (createRoom svc n c u g).1
  | .join r c u => (joinRoom svc r c u).1
  | .leave c => (leaveRoom svc c).1
  | .start c b t => (startGame svc c b t).1
  | .reset c => (resetGame svc c).1
  | .submit c w => (submitWord svc c w).1

def runOps (ops : List Op) : GameService := ops.foldl applyOp emptyService

/-- A trace is collision-free when every `create` draws a room code that is
not currently registered (the correction §9 of the spec assumes). -/
def validTrace : GameService → List Op → Bool
  | _, [] => true
  | svc, op :: rest =>
    (match op with
     | .create _ _ _ g => (alookup svc.rooms g).isNone
     | _ => true) && validTrace (applyOp svc op) rest

/-! ### Association-list lemmas -/

theorem alookup_aset {α : Type} (l : List (String × α)) (k k' : String) (v : α) :
    alookup (aset l k v) k' = if k' = k then some v else alookup l k' := by
  induction l with
  | nil => by_cases h : k' = k <;> simp [aset, alookup, h]
  | cons hd t ih =>
    obtain ⟨k1, v1⟩ := hd
    by_cases h1 : k1 = k
    · subst h1
      by_cases h2 : k' = k1 <;> simp [aset, alookup, h2]
    · by_cases h2 : k' = k1
      · subst h2
        simp [aset, alookup, h1]
      · simp [aset, alookup, h1, h2, ih]

theorem aremove_cons {α : Type} (k1 : String) (v1 : α) (t : List (String × α)) (k : String) :
    aremove ((k1, v1) :: t) k =
      if k1 = k then aremove t k else (k1, v1) :: aremove t k := by
  by_cases h : k1 = k <;> simp [aremove, List.filter_cons, h]

theorem alookup_aremove {α : Type} (l : List (String × α)) (k k' : String) :
    alookup (aremove l k) k' = if k' = k then none else alookup l k' := by
  induction l with
  | nil => by_cases h : k' = k <;> simp [aremove, alookup, h]
  | cons hd t ih =>
    obtain ⟨k1, v1⟩ := hd
    rw [aremove_cons]
    by_cases h1 : k1 = k
    · subst h1
      rw [if_pos rfl, ih]
      by_cases h2 : k' = k1
      · simp [h2]
      · simp [alookup, h2]
    · rw [if_neg h1]
      by_cases h2 : k' = k1
      · subst h2
        simp [alookup, h1]
      · simp [alookup, h2, ih]

theorem aset_of_alookup_none {α : Type} (l : List (String × α)) (k : String) (v : α)
    (h : alookup l k = none) : aset l k v = l ++ [(k, v)] := by
  induction l with
  | nil => simp [aset]
  | cons hd t ih =>
    obtain ⟨k1, v1⟩ := hd
    by_cases h1 : k = k1
    · subst h1
      simp [alookup] at h
    · have h2 : ¬ k1 = k := fun e => h1 e.symm
      simp [alookup, h1] at h
      simp [aset, h2, ih h]

theorem alookup_map_value {α β : Type} (l : List (String × α)) (f : String → α → β)
    (k : String) :
    alookup (l.map (fun kp => (kp.1, f kp.1 kp.2))) k = (alookup l k).map (f k) := by
  induction l with
  | nil => simp [alookup]
  | cons hd t ih =>
    obtain ⟨k1, v1⟩ := hd
    by_cases h1 : k = k1
    · subst h1; simp [alookup]
    · simp [alookup, h1, ih]

theorem head_filter_eq_find {α : Type} (p : α → Bool) (l : List α) :
    (l.filter p).head? = l.find? p := by
  induction l with
  | nil => simp
  | cons hd t ih =>
    by_cases h : p hd
    · simp [List.filter, List.find?, h]
    · simp only [Bool.not_eq_true] at h
      simp [List.filter, List.find?, h, ih]

/-! ### Concrete boards used as stand-ins for `GenerateBoard()` draws -/

def testBoardA : Board := List.replicate 4 (List.replicate 4 'A')

def testBoardB : Board := List.replicate 4 (List.replicate 4 'B')

/-- Claim C1: false on the code.  `CreateRoom` registers the freshly
generated code with no uniqueness check and no retry: when the generated
6-character code ("ABCDEF") collides with a live room's code, the existing
room is silently overwritten, its sole member "s1" is stranded (still
indexed, no longer in any roster), and only the new room survives. -/
def svcC1 : GameService :=
  (createRoom ((createRoom emptyService "room one" "s1" "alice" "ABCDEF").1)
    "room two" "s2" "bob" "ABCDEF").1

theorem c1_createRoom_collision_overwrites :
    svcC1.rooms.length = 1 ∧
    (alookup svcC1.rooms "ABCDEF").map GameRoom.roomName = some "room two" ∧
    ((alookup svcC1.rooms "ABCDEF").map (fun r => (alookup r.players "s1").isSome)) = some false ∧
    alookup svcC1.playerRooms "s1" = some "ABCDEF" := by
  decide

/-- Claim C2 counterexample: a `StartGame` call by the host while the room is
`InProgress` is not rejected.  The source's `StartGame` never checks
`room.State`; the call succeeds, regenerates the board, and resets the
player's score (here from 1 back to 0). -/
theorem c2_counterexample_restart_while_in_progress :
    let S := runOps [.create "room" "s1" "alice" "ABCDEF",
                     .start "s1" testBoardA 100,
                     .submit "s1" "cat"]
    let R := startGame S "s1" testBoardB 200
    (getRoom S "ABCDEF").map GameRoom.state = some GameState.InProgress ∧
    ((getRoom S "ABCDEF").bind (fun r => alookup r.players "s1")).map Player.score = some 1 ∧
    R.2.1 = true ∧
    (getRoom R.1 "ABCDEF").map GameRoom.board = some testBoardB ∧
    ((getRoom R.1 "ABCDEF").bind (fun r => alookup r.players "s1")).map Player.score = some 0 := by
  decide

/-- Claim C3 counterexample: a room in `Finished` state retains its board in
the room model, but the state snapshot returned by `GetGameState` reports the
board as absent (`GetGameState` includes the board only while `InProgress`),
contradicting "board absent only in Waiting". -/
theorem c3_counterexample_finished_snapshot_board_absent :
    let S := (endGameInternal (runOps [.create "room" "s1" "alice" "ABCDEF",
                                       .start "s1" testBoardA 100]) "ABCDEF").1
    (getRoom S "ABCDEF").map GameRoom.state = some GameState.Finished ∧
    (getRoom S "ABCDEF").map GameRoom.board = some testBoardA ∧
    (getGameState S "ABCDEF" 150).map GameStateDto.board = some none := by
  decide

/-- Claim C4 counterexample: after the collision-free operation sequence
"s1 creates room AAAAAA, then s1 creates room BBBBBB", the session "s1" is in
the session-to-room index yet appears in the rosters of two live rooms: the
index diverges from the rosters because neither `CreateRoom` nor `JoinRoom`
checks whether the session is already in a room. -/
theorem c4_counterexample_session_in_two_rosters :
    let ops : List Op := [.create "room one" "s1" "alice" "AAAAAA",
                          .create "room two" "s1" "alice" "BBBBBB"]
    validTrace emptyService ops = true ∧
    (alookup (runOps ops).playerRooms "s1").isSome = true ∧
    ((runOps ops).rooms.filter (fun kr => (alookup kr.2.players "s1").isSome)).length = 2 := by
  decide

/-- Claim C5: false on the code.  `LeaveRoom` removes the caller's
session-index entry (`TryRemove`) before looking up the room; at the reachable
state below (a room-code collision overwrote room "AAAAAA" and its replacement
was later deleted, leaving "s1" indexed to a dead code) the call returns
failure yet has deleted "s1"'s index entry. -/
def svcC5 : GameService :=
  runOps [.create "room one" "s1" "alice" "AAAAAA",
          .create "room two" "s2" "bob" "AAAAAA",
          .leave "s2"]

theorem c5_leaveRoom_failure_mutates_index :
    alookup svcC5.playerRooms "s1" = some "AAAAAA" ∧
    (leaveRoom svcC5 "s1").2.1 = false ∧
    (leaveRoom svcC5 "s1").1.playerRooms = [] := by
  decide

/-- Claim C2 (amended): a `StartGame` call by the host of an existing room
with a nonempty roster succeeds regardless of the room's current state — in
particular while `InProgress` it starts a new round: it regenerates the
board, stamps a new start time, and resets every player's score and
found-word set.  `StartGame` performs no state check at all. -/
theorem c2_amended_startGame_ignores_state
    (svc : GameService) (cid roomId : String) (room : GameRoom) (b : Board) (now : Nat)
    (hidx : alookup svc.playerRooms cid = some roomId)
    (hroom : alookup svc.rooms roomId = some room)
    (hhost : room.hostConnectionId = cid)
    (hne : room.players ≠ []) :
    ∃ room',
      startGame svc cid b now =
        ({ svc with rooms := aset svc.rooms roomId room' },
         (true, "Game started", some room')) ∧
      room'.state = GameState.InProgress ∧
      room'.board = b ∧
      room'.gameStartTime = some now ∧
      room'.players = room.players.map (fun kp =>
        (kp.1, { kp.2 with score := 0, foundWords := [] })) := by
  have hlen : ¬ room.players.length < 1 := by
    simpa [Nat.lt_one_iff, List.length_eq_zero] using hne
  refine ⟨{ room with
      board := b, state := GameState.InProgress, gameStartTime := some now,
      players := room.players.map (fun kp =>
        (kp.1, { kp.2 with score := 0, foundWords := [] })) }, ?_, rfl, rfl, rfl, rfl⟩
  simp only [startGame, hidx, hroom, hhost]
  simp [hlen]

/-- A concrete in-progress room and registry used to instantiate theorems. -/
def roomIP : GameRoom :=
  { roomId := "RRRRRR", roomName := "room", hostConnectionId := "s1",
    players := [("s1", { connectionId := "s1", username := "alice", score := 3,
                         foundWords := ["CAT"], isReady := false })],
    board := testBoardA, state := GameState.InProgress, gameStartTime := some 100,
    gameDurationSeconds := 180 }

def svcIP : GameService :=
  { rooms := [("RRRRRR", roomIP)], playerRooms := [("s1", "RRRRRR")] }

/-- Witness for the amended C2 at a concrete `InProgress` room. -/
theorem c2_amended_startGame_ignores_state_witness :
    alookup svcIP.playerRooms "s1" = some "RRRRRR" ∧
    alookup svcIP.rooms "RRRRRR" = some roomIP ∧
    roomIP.hostConnectionId = "s1" ∧
    roomIP.players ≠ [] ∧
    roomIP.state = GameState.InProgress ∧
    (∃ room',
      startGame svcIP "s1" testBoardB 200 =
        ({ svcIP with rooms := aset svcIP.rooms "RRRRRR" room' },
         (true, "Game started", some room')) ∧
      room'.state = GameState.InProgress ∧
      room'.board = testBoardB ∧
      room'.gameStartTime = some 200 ∧
      room'.players = roomIP.players.map (fun kp =>
        (kp.1, { kp.2 with score := 0, foundWords := [] }))) :=
  ⟨by decide, by decide, by decide, by decide, by decide,
   c2_amended_startGame_ignores_state svcIP "s1" "RRRRRR" roomIP testBoardB 200
     (by decide) (by decide) (by decide) (by decide)⟩

/-- Claim C3 (amended): every state snapshot reports a board exactly when the
room is `InProgress`: `dto.board` is present iff `dto.state = InProgress`, so
a `Finished` room's snapshot omits the board (the room model's own board field
is total and holds a blank grid while `Waiting`). -/
theorem c3_amended_snapshot_board_iff_in_progress
    (svc : GameService) (roomId : String) (now : Nat) (dto : GameStateDto)
    (h : getGameState svc roomId now = some dto) :
    dto.board.isSome = true ↔ dto.state = GameState.InProgress := by
  unfold getGameState at h
  cases hr : getRoom svc roomId with
  | none => rw [hr] at h; cases h
  | some room =>
    rw [hr] at h
    simp only [Option.some.injEq] at h
    subst h
    by_cases hs : room.state = GameState.InProgress <;> simp [hs]

def svcW3 : GameService := (createRoom emptyService "w room" "s9" "cara" "CCCCCC").1

def dtoW3 : GameStateDto :=
  { roomId := "CCCCCC", roomName := "w room",
    players := [{ username := "cara", score := 0, isReady := false, isHost := true }],
    board := none, state := GameState.Waiting, remainingSeconds := none }

/-- Witness for the amended C3 at a concrete `Waiting` room snapshot. -/
theorem c3_amended_snapshot_board_iff_in_progress_witness :
    getGameState svcW3 "CCCCCC" 7 = some dtoW3 ∧
    (dtoW3.board.isSome = true ↔ dtoW3.state = GameState.InProgress) :=
  ⟨by decide, c3_amended_snapshot_board_iff_in_progress svcW3 "CCCCCC" 7 dtoW3 (by decide)⟩

theorem length_aset_of_isSome {α : Type} (l : List (String × α)) (k : String) (v : α)
    (h : (alookup l k).isSome = true) : (aset l k v).length = l.length := by
  induction l with
  | nil => simp [alookup] at h
  | cons hd t ih =>
    obtain ⟨k1, v1⟩ := hd
    by_cases h1 : k1 = k
    · simp [aset, h1]
    · have h2 : ¬ k = k1 := fun e => h1 e.symm
      simp [alookup, h2] at h
      simp [aset, h1, ih h]

def svcC6 : GameService := runOps [.create "room" "s1" "alice" "GGGGGG"]

/-- Claim C6 counterexample: "adds exactly one new player" fails on the code.
The session "s1" is already the sole member of room "GGGGGG" (as "alice") and
calls `JoinRoom` on that same room as "bob": no guard rejects it, the call
succeeds, and `room.Players[connectionId] = new Player` replaces the existing
entry in place — the roster still has exactly one player, now named "bob". -/
theorem c6_counterexample_rejoin_replaces_entry :
    (joinRoom svcC6 "GGGGGG" "s1" "bob").2.1 = true ∧
    (alookup svcC6.rooms "GGGGGG").map (fun r => r.players.length) = some 1 ∧
    (alookup (joinRoom svcC6 "GGGGGG" "s1" "bob").1.rooms "GGGGGG").map
      (fun r => r.players.length) = some 1 ∧
    ((alookup (joinRoom svcC6 "GGGGGG" "s1" "bob").1.rooms "GGGGGG").bind
      (fun r => alookup r.players "s1")).map Player.username = some "bob" := by
  decide

/-- Claim C6 (amended): `JoinRoom`'s contract.  Unknown code fails with the
room-not-found message; a room not in `Waiting` fails with the in-progress
message; a roster of 8 or more fails with the room-full message; an existing
member whose name matches case-insensitively fails with the name-taken
message; every failure leaves the registry unchanged.  Otherwise the call
succeeds, sets the roster entry for the session (replacing any existing entry
for that session id), indexes the session to the room, and returns the
updated room; the roster grows by exactly one only when the session was not
already a member, and keeps its size when it was. -/
theorem c6_amended_joinRoom_contract (svc : GameService) (roomId cid username : String) :
    (alookup svc.rooms roomId = none →
      joinRoom svc roomId cid username = (svc, (false, "Room not found", none))) ∧
    (∀ room, alookup svc.rooms roomId = some room →
      (room.state ≠ GameState.Waiting →
        joinRoom svc roomId cid username =
          (svc, (false, "Game already in progress", none))) ∧
      (room.state = GameState.Waiting → 8 ≤ room.players.length →
        joinRoom svc roomId cid username = (svc, (false, "Room is full", none))) ∧
      (room.state = GameState.Waiting → room.players.length < 8 →
        room.players.any (fun kp => strUpper kp.2.username == strUpper username) = true →
        joinRoom svc roomId cid username =
          (svc, (false, "Username already taken in this room", none))) ∧
      (room.state = GameState.Waiting → room.players.length < 8 →
        room.players.any (fun kp => strUpper kp.2.username == strUpper username) = false →
        ∃ room',
          joinRoom svc roomId cid username =
            ({ rooms := aset svc.rooms roomId room',
               playerRooms := aset svc.playerRooms cid roomId },
             (true, "Joined successfully", some room')) ∧
          room'.players = aset room.players cid (mkPlayer cid username) ∧
          alookup room'.players cid = some (mkPlayer cid username) ∧
          alookup (aset svc.playerRooms cid roomId) cid = some roomId ∧
          (alookup room.players cid = none →
            room'.players = room.players ++ [(cid, mkPlayer cid username)] ∧
            room'.players.length = room.players.length + 1) ∧
          ((alookup room.players cid).isSome = true →
            room'.players.length = room.players.length))) := by
  constructor
  · intro hnone
    simp only [joinRoom, hnone]
  · intro room hroom
    refine ⟨?_, ?_, ?_, ?_⟩
    · intro hstate
      simp only [joinRoom, hroom]
      simp [hstate]
    · intro hstate hfull
      simp only [joinRoom, hroom]
      simp [hstate, hfull, Nat.not_lt.mpr hfull]
    · intro hstate hlt hname
      simp only [joinRoom, hroom]
      simp [hstate, Nat.not_le.mpr hlt, hname]
    · intro hstate hlt hname
      refine ⟨{ room with
          players := aset room.players cid (mkPlayer cid username) },
        ?_, rfl, ?_, ?_, ?_, ?_⟩
      · simp only [joinRoom, hroom]
        simp [hstate, Nat.not_le.mpr hlt, hname]
      · simp [alookup_aset]
      · rw [alookup_aset, if_pos rfl]
      · intro hfresh
        constructor
        · simpa using aset_of_alookup_none room.players cid (mkPlayer cid username) hfresh
        · simp [aset_of_alookup_none room.players cid (mkPlayer cid username) hfresh]
      · intro hmem
        simpa using length_aset_of_isSome room.players cid (mkPlayer cid username) hmem

def svcW6 : GameService := (createRoom emptyService "room" "s1" "alice" "DDDDDD").1

def roomW6 : GameRoom := (createRoom emptyService "room" "s1" "alice" "DDDDDD").2

/-- Witness for the amended C6's success branch at a concrete one-member
`Waiting` room, for a session that is not yet a member. -/
theorem c6_amended_joinRoom_contract_witness :
    alookup svcW6.rooms "DDDDDD" = some roomW6 ∧
    roomW6.state = GameState.Waiting ∧
    roomW6.players.length < 8 ∧
    roomW6.players.any (fun kp => strUpper kp.2.username == strUpper "bob") = false ∧
    (∃ room',
      joinRoom svcW6 "DDDDDD" "s2" "bob" =
        ({ rooms := aset svcW6.rooms "DDDDDD" room',
           playerRooms := aset svcW6.playerRooms "s2" "DDDDDD" },
         (true, "Joined successfully", some room')) ∧
      room'.players = aset roomW6.players "s2" (mkPlayer "s2" "bob") ∧
      alookup room'.players "s2" = some (mkPlayer "s2" "bob") ∧
      alookup (aset svcW6.playerRooms "s2" "DDDDDD") "s2" = some "DDDDDD" ∧
      (alookup roomW6.players "s2" = none →
        room'.players = roomW6.players ++ [("s2", mkPlayer "s2" "bob")] ∧
        room'.players.length = roomW6.players.length + 1) ∧
      ((alookup roomW6.players "s2").isSome = true →
        room'.players.length = roomW6.players.length)) :=
  ⟨by decide, by decide, by decide, by decide,
   ((c6_amended_joinRoom_contract svcW6 "DDDDDD" "s2" "bob").2 roomW6 (by decide)).2.2.2
     (by decide) (by decide) (by decide)⟩

/-- Claim C7: when the current host leaves and at least one member remains,
`LeaveRoom` succeeds, the reported `newHostId` is a member of the returned
room's roster after the removal, and the returned room's host field equals
`newHostId`; the updated room is what the registry stores. -/
theorem c7_host_leave_promotes_remaining_member
    (svc : GameService) (cid roomId : String) (room : GameRoom)
    (hidx : alookup svc.playerRooms cid = some roomId)
    (hroom : alookup svc.rooms roomId = some room)
    (hhost : room.hostConnectionId = cid)
    (hrest : aremove room.players cid ≠ []) :
    ∃ svc' room' newHost,
      leaveRoom svc cid = (svc', (true, some room', some newHost)) ∧
      (alookup room'.players newHost).isSome = true ∧
      room'.hostConnectionId = newHost ∧
      alookup svc'.rooms roomId = some room' := by
  obtain ⟨⟨k, p⟩, rest, hrem⟩ : ∃ hd rest, aremove room.players cid = hd :: rest := by
    cases h : aremove room.players cid with
    | nil => exact absurd h hrest
    | cons hd rest => exact ⟨hd, rest, rfl⟩
  have heq : leaveRoom svc cid =
      ({ rooms := aset svc.rooms roomId
           { room with players := (k, p) :: rest, hostConnectionId := k },
         playerRooms := aremove svc.playerRooms cid },
       (true, some { room with players := (k, p) :: rest, hostConnectionId := k }, some k)) := by
    simp only [leaveRoom, hidx, hroom, hrem, hhost]
    simp
  refine ⟨_, _, k, heq, ?_, rfl, ?_⟩
  · simp [alookup]
  · rw [alookup_aset, if_pos rfl]

def svcH : GameService := runOps [.create "room" "h1" "ann" "EEEEEE",
                                  .join "EEEEEE" "m2" "ben"]

def roomH : GameRoom :=
  { roomId := "EEEEEE", roomName := "room", hostConnectionId := "h1",
    players := [("h1", mkPlayer "h1" "ann"), ("m2", mkPlayer "m2" "ben")],
    board := blankBoard, state := GameState.Waiting, gameStartTime := none,
    gameDurationSeconds := 180 }

/-- Witness for C7: host "h1" leaves a two-member room. -/
theorem c7_host_leave_promotes_remaining_member_witness :
    alookup svcH.playerRooms "h1" = some "EEEEEE" ∧
    alookup svcH.rooms "EEEEEE" = some roomH ∧
    roomH.hostConnectionId = "h1" ∧
    aremove roomH.players "h1" ≠ [] ∧
    (∃ svc' room' newHost,
      leaveRoom svcH "h1" = (svc', (true, some room', some newHost)) ∧
      (alookup room'.players newHost).isSome = true ∧
      room'.hostConnectionId = newHost ∧
      alookup svc'.rooms "EEEEEE" = some room') :=
  ⟨by decide, by decide, by decide, by decide,
   c7_host_leave_promotes_remaining_member svcH "h1" "EEEEEE" roomH
     (by decide) (by decide) (by decide) (by decide)⟩

/-! ### Roster enumeration order under .NET `Dictionary` slot reuse (C10)

The roster is a .NET `Dictionary<string, Player>`: enumeration (and so
`Keys.First()`, `GameService.cs` line 93) walks the entries array in slot
order, `Remove` frees the entry's slot, and a later add of a new key reuses a
freed slot instead of appending, so enumeration order diverges from join
order after a remove-then-add.  The model below keeps the slot array
explicit; an add reuses the first free slot, which agrees with the .NET free
list whenever at most one slot is free (as in the counterexample trace). -/

abbrev Slots := List (Option (String × Player))

/-- `room.Players[id] = new Player` for a key not currently present: the
entry goes into the first free slot, else is appended. -/
def slotInsert : Slots → String → Player → Slots
  | [], k, v => [some (k, v)]
  | none :: t, k, v => some (k, v) :: t
  | some e :: t, k, v => some e :: slotInsert t k v

/-- `room.Players.Remove(id)`: the entry's slot becomes free. -/
def slotRemove : Slots → String → Slots
  | [], _ => []
  | none :: t, k => none :: slotRemove t k
  | some e :: t, k => if e.1 = k then none :: t else some e :: slotRemove t k

/-- `Keys` in enumeration (slot) order. -/
def slotKeys (s : Slots) : List String := s.filterMap (fun o => o.map Prod.fst)

/-- `room.Players.Keys.First()`. -/
def keysFirst (s : Slots) : Option String := (slotKeys s).head?

/-- `GameService.LeaveRoom` lines 80 and 89–95 at roster level: remove the
leaver, then promote `Keys.First()` of what remains. -/
def slotHostSuccessor (s : Slots) (leaver : String) : Option String :=
  keysFirst (slotRemove s leaver)

/-- The roster slot state reached by: A joins, B joins, C joins, A leaves
(B is promoted), D joins (reusing A's freed slot). -/
def c10slots : Slots :=
  slotInsert (slotRemove (slotInsert (slotInsert (slotInsert [] "A" (mkPlayer "A" "ann"))
    "B" (mkPlayer "B" "ben")) "C" (mkPlayer "C" "cam")) "A") "D" (mkPlayer "D" "dee")

/-- Claim C10 counterexample: host succession does not pick the
earliest-joined remaining member.  In the reachable roster above (join order
A, B, C, D; D sits in A's reused slot) the host "B" leaves: `Keys.First()`
promotes "D", but the earliest-joined remaining member — the first entry of
the join order still in the roster — is "C". -/
theorem c10_counterexample_slot_reuse :
    slotKeys c10slots = ["D", "B", "C"] ∧
    slotHostSuccessor c10slots "B" = some "D" ∧
    ["A", "B", "C", "D"].find?
      (fun k => (slotKeys (slotRemove c10slots "B")).contains k) = some "C" ∧
    slotHostSuccessor c10slots "B" ≠
      ["A", "B", "C", "D"].find?
        (fun k => (slotKeys (slotRemove c10slots "B")).contains k) := by
  decide

theorem slotKeys_map_some (l : List (String × Player)) :
    slotKeys (l.map some) = l.map Prod.fst := by
  induction l with
  | nil => rfl
  | cons hd t ih => simp [slotKeys, List.filterMap_cons, ih]

theorem find_ne_of_not_mem (t : List (String × Player)) (k : String)
    (hk : k ∉ t.map Prod.fst) :
    t.find? (fun kp => decide (kp.1 ≠ k)) = t.head? := by
  cases t with
  | nil => rfl
  | cons hd t2 =>
    obtain ⟨k1, v1⟩ := hd
    simp only [List.map_cons, List.mem_cons, not_or] at hk
    have hpred : decide (k1 ≠ k) = true := by
      simp only [decide_eq_true_eq]
      exact fun e => hk.1 e.symm
    simp [List.find?, hpred]

/-- Claim C10 (amended): host succession is deterministic — the promoted host
is `Keys.First()` of the post-removal slot table, a pure function of the
roster's stored slot state — and it equals the earliest-joined remaining
member exactly as long as no freed slot has been reused: for a roster whose
slots hold the members in join order with no free slot, the successor of a
leaver is the first member of the join order other than the leaver.  After a
remove-then-add the promoted host can be a later-joined member (see the
counterexample). -/
theorem c10_amended_host_first_in_join_order_without_reuse
    (ks : List (String × Player)) (k : String)
    (hnd : (ks.map Prod.fst).Nodup) :
    slotHostSuccessor (ks.map some) k =
      (ks.find? (fun kp => decide (kp.1 ≠ k))).map Prod.fst := by
  cases ks with
  | nil => rfl
  | cons hd t =>
    obtain ⟨k1, v1⟩ := hd
    simp only [List.map_cons, List.nodup_cons] at hnd
    obtain ⟨hk1, _⟩ := hnd
    by_cases h1 : k1 = k
    · subst h1
      have hrm : slotRemove (some (k1, v1) :: t.map some) k1 = none :: t.map some := by
        simp [slotRemove]
      have hfind : t.find? (fun kp => decide (kp.1 ≠ k1)) = t.head? :=
        find_ne_of_not_mem t k1 hk1
      have hpred : decide (k1 ≠ k1) = false := by simp
      simp only [List.map_cons] at hrm ⊢
      simp [slotHostSuccessor, hrm, keysFirst, slotKeys, List.filterMap_cons,
            slotKeys_map_some, List.find?, hpred, hfind]
      cases t with
      | nil => rfl
      | cons hd2 t2 =>
        simp only [ne_eq, decide_not] at hfind
        rw [hfind]
    · have hrm : slotRemove (some (k1, v1) :: t.map some) k =
          some (k1, v1) :: slotRemove (t.map some) k := by
        simp [slotRemove, h1]
      have hpred : decide (k1 ≠ k) = true := by
        simp only [decide_eq_true_eq]
        exact h1
      simp only [List.map_cons] at hrm ⊢
      simp [slotHostSuccessor, hrm, keysFirst, slotKeys, List.filterMap_cons,
            List.find?, hpred]

def rosterABC : List (String × Player) :=
  [("A", mkPlayer "A" "ann"), ("B", mkPlayer "B" "ben"), ("C", mkPlayer "C" "cam")]

/-- Witness for the amended C10: in a reuse-free three-member roster in join
order, the host "A" leaving promotes "B", the earliest-joined remaining
member. -/
theorem c10_amended_host_first_in_join_order_without_reuse_witness :
    (rosterABC.map Prod.fst).Nodup ∧
    slotHostSuccessor (rosterABC.map some) "A" =
      (rosterABC.find? (fun kp => decide (kp.1 ≠ "A"))).map Prod.fst :=
  ⟨by decide,
   c10_amended_host_first_in_join_order_without_reuse rosterABC "A" (by decide)⟩

/-- The player record after a fresh word is credited in `SubmitWord`. -/
def submittedPlayer (player : Player) (word : String) : Player :=
  { player with
    foundWords := player.foundWords ++ [strUpper word]
    score := player.score + max 1 (word.length - 2) }

/-- The room record after a fresh word is credited in `SubmitWord`. -/
def submittedRoom (room : GameRoom) (cid word : String) (player : Player) : GameRoom :=
  { room with players := aset room.players cid (submittedPlayer player word) }

/-- Claim C8: `SubmitWord` is idempotent per normalised word while the
caller's room is `InProgress`.  A word already credited is a no-op returning
the current score; a fresh word is appended to the player's found-word list
and the score grows by exactly `max 1 (length - 2)`; any later submission of
a word with the same normalisation returns that same score and leaves the
registry state unchanged. -/
theorem c8_submitWord_idempotent
    (svc : GameService) (cid word roomId : String) (room : GameRoom) (player : Player)
    (hidx : alookup svc.playerRooms cid = some roomId)
    (hroom : alookup svc.rooms roomId = some room)
    (hstate : room.state = GameState.InProgress)
    (hplayer : alookup room.players cid = some player) :
    (player.foundWords.contains (strUpper word) = true →
      submitWord svc cid word = (svc, SubmitOutcome.success player.score)) ∧
    (player.foundWords.contains (strUpper word) = false →
      ∃ svc1 room1 player1,
        submitWord svc cid word =
          (svc1, SubmitOutcome.success (player.score + max 1 (word.length - 2))) ∧
        svc1.playerRooms = svc.playerRooms ∧
        alookup svc1.rooms roomId = some room1 ∧
        alookup room1.players cid = some player1 ∧
        player1.foundWords = player.foundWords ++ [strUpper word] ∧
        player1.score = player.score + max 1 (word.length - 2) ∧
        (∀ w2 : String, strUpper w2 = strUpper word →
          submitWord svc1 cid w2 =
            (svc1, SubmitOutcome.success (player.score + max 1 (word.length - 2))))) := by
  constructor
  · intro hfound
    have hmem : strUpper word ∈ player.foundWords := by simpa using hfound
    simp only [submitWord, hidx, hroom, hstate, hplayer]
    simp [hmem]
  · intro hfresh
    have hnmem : strUpper word ∉ player.foundWords := by simpa using hfresh
    refine ⟨{ svc with rooms := aset svc.rooms roomId (submittedRoom room cid word player) },
      submittedRoom room cid word player, submittedPlayer player word,
      ?_, rfl, ?_, ?_, rfl, rfl, ?_⟩
    · simp only [submitWord, hidx, hroom, hstate, hplayer]
      simp [hnmem, hstate, submittedRoom, submittedPlayer]
    · simp [alookup_aset]
    · simp [submittedRoom, alookup_aset]
    · intro w2 hw2
      simp only [submitWord]
      simp [hidx, alookup_aset, hstate, hw2, submittedRoom, submittedPlayer]

def playerIP : Player :=
  { connectionId := "s1", username := "alice", score := 3, foundWords := ["CAT"],
    isReady := false }

/-- Witness for C8 at a concrete `InProgress` room: player "s1" with score 3
and credited word "CAT" submits "dog". -/
theorem c8_submitWord_idempotent_witness :
    alookup svcIP.playerRooms "s1" = some "RRRRRR" ∧
    alookup svcIP.rooms "RRRRRR" = some roomIP ∧
    roomIP.state = GameState.InProgress ∧
    alookup roomIP.players "s1" = some playerIP ∧
    ((playerIP.foundWords.contains (strUpper "dog") = true →
      submitWord svcIP "s1" "dog" = (svcIP, SubmitOutcome.success playerIP.score)) ∧
    (playerIP.foundWords.contains (strUpper "dog") = false →
      ∃ svc1 room1 player1,
        submitWord svcIP "s1" "dog" =
          (svc1, SubmitOutcome.success (playerIP.score + max 1 ("dog".length - 2))) ∧
        svc1.playerRooms = svcIP.playerRooms ∧
        alookup svc1.rooms "RRRRRR" = some room1 ∧
        alookup room1.players "s1" = some player1 ∧
        player1.foundWords = playerIP.foundWords ++ [strUpper "dog"] ∧
        player1.score = playerIP.score + max 1 ("dog".length - 2) ∧
        (∀ w2 : String, strUpper w2 = strUpper "dog" →
          submitWord svc1 "s1" w2 =
            (svc1, SubmitOutcome.success (playerIP.score + max 1 ("dog".length - 2)))))) :=
  ⟨by decide, by decide, by decide, by decide,
   c8_submitWord_idempotent svcIP "s1" "dog" "RRRRRR" roomIP playerIP
     (by decide) (by decide) (by decide) (by decide)⟩

/-- Claim C9: firing the round-end action (`EndGameInternal`) against a room
that is missing or no longer `InProgress` is a no-op: the registry state is
unchanged, no `GameEnded` broadcast is emitted, and no error is raised (the
function is total). -/
theorem c9_endGameInternal_noop_when_not_in_progress
    (svc : GameService) (roomId : String)
    (h : (getRoom svc roomId).map GameRoom.state ≠ some GameState.InProgress) :
    endGameInternal svc roomId = (svc, false) := by
  unfold endGameInternal
  cases hr : getRoom svc roomId with
  | none => simp
  | some room =>
    rw [hr] at h
    have hs : room.state ≠ GameState.InProgress := by
      intro e
      apply h
      simp [e]
    simp [hs]

def svcF : GameService :=
  (endGameInternal (runOps [.create "room" "s9" "zoe" "FFFFFF",
                            .start "s9" testBoardA 10]) "FFFFFF").1

/-- Witness for C9: the timer fires a second time against a `Finished` room. -/
theorem c9_endGameInternal_noop_when_not_in_progress_witness :
    (getRoom svcF "FFFFFF").map GameRoom.state ≠ some GameState.InProgress ∧
    endGameInternal svcF "FFFFFF" = (svcF, false) :=
  ⟨by decide, c9_endGameInternal_noop_when_not_in_progress svcF "FFFFFF" (by decide)⟩

/-! ### The registry invariant (amended C4) -/

/-- Every registered room's `roomId` field equals the key it is stored under. -/
def RoomKeysOk (svc : GameService) : Prop :=
  ∀ k room, alookup svc.rooms k = some room → room.roomId = k

/-- Every indexed session id appears in the roster of the room it is indexed
to (and that room is live). -/
def IndexedInRoster (svc : GameService) : Prop :=
  ∀ cid roomId, alookup svc.playerRooms cid = some roomId →
    ∃ room, alookup svc.rooms roomId = some room ∧ (alookup room.players cid).isSome = true

def RegistryInv (svc : GameService) : Prop := RoomKeysOk svc ∧ IndexedInRoster svc

theorem registryInv_createRoom (svc : GameService) (n c u g : String)
    (hfresh : alookup svc.rooms g = none) (hinv : RegistryInv svc) :
    RegistryInv (createRoom svc n c u g).1 := by
  obtain ⟨hkeys, hidx⟩ := hinv
  constructor
  · intro k room hk
    simp only [createRoom] at hk
    rw [alookup_aset] at hk
    by_cases h : k = g
    · rw [if_pos h] at hk
      cases hk
      exact h.symm
    · rw [if_neg h] at hk
      exact hkeys k room hk
  · intro cid roomId hcr
    simp only [createRoom] at hcr ⊢
    rw [alookup_aset] at hcr
    by_cases h : cid = c
    · rw [if_pos h] at hcr
      cases hcr
      refine ⟨{ roomId := g, roomName := n, hostConnectionId := c,
                players := [(c, mkPlayer c u)], board := blankBoard,
                state := GameState.Waiting, gameStartTime := none,
                gameDurationSeconds := 180 }, ?_, ?_⟩
      · rw [alookup_aset, if_pos rfl]
      · simp [alookup, h]
    · rw [if_neg h] at hcr
      obtain ⟨room, hr, hp⟩ := hidx cid roomId hcr
      refine ⟨room, ?_, hp⟩
      rw [alookup_aset]
      by_cases h2 : roomId = g
      · subst h2
        rw [hr] at hfresh
        cases hfresh
      · rw [if_neg h2]
        exact hr

/-- The room record after a successful `JoinRoom`. -/
def joinedRoom (room : GameRoom) (c u : String) : GameRoom :=
  { room with players := aset room.players c (mkPlayer c u) }

theorem registryInv_joinRoom (svc : GameService) (r c u : String)
    (hinv : RegistryInv svc) : RegistryInv (joinRoom svc r c u).1 := by
  obtain ⟨hkeys, hidx⟩ := hinv
  cases hr : alookup svc.rooms r with
  | none =>
    have h1 : (joinRoom svc r c u).1 = svc := by simp [joinRoom, hr]
    rw [h1]
    exact ⟨hkeys, hidx⟩
  | some room =>
    by_cases hw : room.state = GameState.Waiting
    · by_cases hlen : room.players.length ≥ 8
      · have h1 : (joinRoom svc r c u).1 = svc := by simp [joinRoom, hr, hw, hlen]
        rw [h1]
        exact ⟨hkeys, hidx⟩
      · by_cases hname :
            room.players.any (fun kp => strUpper kp.2.username == strUpper u) = true
        · have h1 : (joinRoom svc r c u).1 = svc := by
            simp [joinRoom, hr, hw, hlen, hname]
          rw [h1]
          exact ⟨hkeys, hidx⟩
        · have hname' :
              room.players.any (fun kp => strUpper kp.2.username == strUpper u) = false := by
            simpa using hname
          have h1 : (joinRoom svc r c u).1 =
              { rooms := aset svc.rooms r (joinedRoom room c u),
                playerRooms := aset svc.playerRooms c r } := by
            simp [joinRoom, joinedRoom, hr, hw, hlen, hname']
          rw [h1]
          constructor
          · intro k rm hk
            simp only [alookup_aset] at hk
            by_cases hkr : k = r
            · rw [if_pos hkr] at hk
              cases hk
              subst hkr
              exact hkeys k room hr
            · rw [if_neg hkr] at hk
              exact hkeys k rm hk
          · intro cid rid hcr
            simp only [alookup_aset] at hcr
            by_cases hcc : cid = c
            · rw [if_pos hcc] at hcr
              cases hcr
              refine ⟨joinedRoom room c u, ?_, ?_⟩
              · simp [alookup_aset]
              · subst hcc
                simp [joinedRoom, alookup_aset]
            · rw [if_neg hcc] at hcr
              obtain ⟨rm, hrm, hp⟩ := hidx cid rid hcr
              by_cases hrr : rid = r
              · subst hrr
                rw [hr] at hrm
                cases hrm
                refine ⟨joinedRoom room c u, ?_, ?_⟩
                · simp [alookup_aset]
                · simp only [joinedRoom, alookup_aset]
                  rw [if_neg hcc]
                  exact hp
              · refine ⟨rm, ?_, hp⟩
                simp only [alookup_aset]
                rw [if_neg hrr]
                exact hrm
    · have h1 : (joinRoom svc r c u).1 = svc := by simp [joinRoom, hr, hw]
      rw [h1]
      exact ⟨hkeys, hidx⟩

/-- The room record after a host departure in `LeaveRoom`. -/
def leftRoomHost (room : GameRoom) (k : String) (p : Player)
    (rest : List (String × Player)) : GameRoom :=
  { room with players := (k, p) :: rest, hostConnectionId := k }

/-- The room record after a non-host departure in `LeaveRoom`. -/
def leftRoom (room : GameRoom) (k : String) (p : Player)
    (rest : List (String × Player)) : GameRoom :=
  { room with players := (k, p) :: rest }

theorem registryInv_leaveRoom (svc : GameService) (c : String)
    (hinv : RegistryInv svc) : RegistryInv (leaveRoom svc c).1 := by
  obtain ⟨hkeys, hidx⟩ := hinv
  cases hc : alookup svc.playerRooms c with
  | none =>
    have h1 : (leaveRoom svc c).1 = svc := by simp [leaveRoom, hc]
    rw [h1]
    exact ⟨hkeys, hidx⟩
  | some roomId =>
    obtain ⟨room, hroom, hcp⟩ := hidx c roomId hc
    cases hrem : aremove room.players c with
    | nil =>
      have h1 : (leaveRoom svc c).1 =
          { rooms := aremove svc.rooms roomId,
            playerRooms := aremove svc.playerRooms c } := by
        simp [leaveRoom, hc, hroom, hrem]
      rw [h1]
      constructor
      · intro k rm hk
        simp only [alookup_aremove] at hk
        by_cases hkr : k = roomId
        · rw [if_pos hkr] at hk
          cases hk
        · rw [if_neg hkr] at hk
          exact hkeys k rm hk
      · intro cid rid hcr
        simp only [alookup_aremove] at hcr
        by_cases hcc : cid = c
        · rw [if_pos hcc] at hcr
          cases hcr
        · rw [if_neg hcc] at hcr
          obtain ⟨rm, hrm, hp⟩ := hidx cid rid hcr
          by_cases hrr : rid = roomId
          · subst hrr
            rw [hroom] at hrm
            cases hrm
            have hsurv : (alookup (aremove room.players c) cid).isSome = true := by
              rw [alookup_aremove, if_neg hcc]
              exact hp
            rw [hrem] at hsurv
            simp [alookup] at hsurv
          · refine ⟨rm, ?_, hp⟩
            simp only [alookup_aremove]
            rw [if_neg hrr]
            exact hrm
    | cons kp rest =>
      obtain ⟨k, p⟩ := kp
      by_cases hhost : room.hostConnectionId = c
      · have h1 : (leaveRoom svc c).1 =
            { rooms := aset svc.rooms roomId (leftRoomHost room k p rest),
              playerRooms := aremove svc.playerRooms c } := by
          simp [leaveRoom, leftRoomHost, hc, hroom, hrem, hhost]
        rw [h1]
        constructor
        · intro k2 rm hk
          simp only [alookup_aset] at hk
          by_cases hkr : k2 = roomId
          · rw [if_pos hkr] at hk
            cases hk
            subst hkr
            exact hkeys k2 room hroom
          · rw [if_neg hkr] at hk
            exact hkeys k2 rm hk
        · intro cid rid hcr
          simp only [alookup_aremove] at hcr
          by_cases hcc : cid = c
          · rw [if_pos hcc] at hcr
            cases hcr
          · rw [if_neg hcc] at hcr
            obtain ⟨rm, hrm, hp⟩ := hidx cid rid hcr
            by_cases hrr : rid = roomId
            · subst hrr
              rw [hroom] at hrm
              cases hrm
              refine ⟨leftRoomHost room k p rest, ?_, ?_⟩
              · simp [alookup_aset]
              · have hsurv : (alookup (aremove room.players c) cid).isSome = true := by
                  rw [alookup_aremove, if_neg hcc]
                  exact hp
                rw [hrem] at hsurv
                simpa [leftRoomHost] using hsurv
            · refine ⟨rm, ?_, hp⟩
              simp only [alookup_aset]
              rw [if_neg hrr]
              exact hrm
      · have h1 : (leaveRoom svc c).1 =
            { rooms := aset svc.rooms roomId (leftRoom room k p rest),
              playerRooms := aremove svc.playerRooms c } := by
          simp [leaveRoom, leftRoom, hc, hroom, hrem, hhost]
        rw [h1]
        constructor
        · intro k2 rm hk
          simp only [alookup_aset] at hk
          by_cases hkr : k2 = roomId
          · rw [if_pos hkr] at hk
            cases hk
            subst hkr
            exact hkeys k2 room hroom
          · rw [if_neg hkr] at hk
            exact hkeys k2 rm hk
        · intro cid rid hcr
          simp only [alookup_aremove] at hcr
          by_cases hcc : cid = c
          · rw [if_pos hcc] at hcr
            cases hcr
          · rw [if_neg hcc] at hcr
            obtain ⟨rm, hrm, hp⟩ := hidx cid rid hcr
            by_cases hrr : rid = roomId
            · subst hrr
              rw [hroom] at hrm
              cases hrm
              refine ⟨leftRoom room k p rest, ?_, ?_⟩
              · simp [alookup_aset]
              · have hsurv : (alookup (aremove room.players c) cid).isSome = true := by
                  rw [alookup_aremove, if_neg hcc]
                  exact hp
                rw [hrem] at hsurv
                simpa [leftRoom] using hsurv
            · refine ⟨rm, ?_, hp⟩
              simp only [alookup_aset]
              rw [if_neg hrr]
              exact hrm

theorem alookup_startPlayers (l : List (String × Player)) (k : String) :
    alookup (l.map (fun kp => (kp.1, { kp.2 with score := 0, foundWords := [] }))) k
      = (alookup l k).map (fun p => { p with score := 0, foundWords := [] }) := by
  induction l with
  | nil => simp [alookup]
  | cons hd t ih =>
    obtain ⟨k1, v1⟩ := hd
    by_cases h1 : k = k1
    · subst h1
      simp [alookup]
    · simp [alookup, h1, ih]

theorem alookup_resetPlayers (l : List (String × Player)) (k : String) :
    alookup (l.map (fun kp =>
        (kp.1, { kp.2 with score := 0, foundWords := [], isReady := false }))) k
      = (alookup l k).map (fun p =>
        { p with score := 0, foundWords := [], isReady := false }) := by
  induction l with
  | nil => simp [alookup]
  | cons hd t ih =>
    obtain ⟨k1, v1⟩ := hd
    by_cases h1 : k = k1
    · subst h1
      simp [alookup]
    · simp [alookup, h1, ih]

/-- The room record after a successful `StartGame`. -/
def startedRoom (room : GameRoom) (b : Board) (t : Nat) : GameRoom :=
  { room with
    board := b, state := GameState.InProgress, gameStartTime := some t,
    players := room.players.map (fun kp => (kp.1, { kp.2 with score := 0, foundWords := [] })) }

theorem registryInv_startGame (svc : GameService) (c : String) (b : Board) (t : Nat)
    (hinv : RegistryInv svc) : RegistryInv (startGame svc c b t).1 := by
  obtain ⟨hkeys, hidx⟩ := hinv
  cases hc : alookup svc.playerRooms c with
  | none =>
    have h1 : (startGame svc c b t).1 = svc := by simp [startGame, hc]
    rw [h1]
    exact ⟨hkeys, hidx⟩
  | some roomId =>
    cases hroom : alookup svc.rooms roomId with
    | none =>
      have h1 : (startGame svc c b t).1 = svc := by simp [startGame, hc, hroom]
      rw [h1]
      exact ⟨hkeys, hidx⟩
    | some room =>
      by_cases hhost : room.hostConnectionId = c
      · by_cases hlen : room.players.length < 1
        · have h1 : (startGame svc c b t).1 = svc := by
            simp [startGame, hc, hroom, hhost, hlen]
          rw [h1]
          exact ⟨hkeys, hidx⟩
        · have h1 : (startGame svc c b t).1 =
              { svc with rooms := aset svc.rooms roomId (startedRoom room b t) } := by
            simp [startGame, startedRoom, hc, hroom, hhost, hlen]
          rw [h1]
          constructor
          · intro k rm hk
            simp only [alookup_aset] at hk
            by_cases hkr : k = roomId
            · rw [if_pos hkr] at hk
              cases hk
              subst hkr
              exact hkeys k room hroom
            · rw [if_neg hkr] at hk
              exact hkeys k rm hk
          · intro cid rid hcr
            obtain ⟨rm, hrm, hp⟩ := hidx cid rid hcr
            by_cases hrr : rid = roomId
            · subst hrr
              rw [hroom] at hrm
              cases hrm
              refine ⟨startedRoom room b t, ?_, ?_⟩
              · simp [alookup_aset]
              · simp only [startedRoom, alookup_startPlayers]
                simpa using hp
            · refine ⟨rm, ?_, hp⟩
              simp only [alookup_aset]
              rw [if_neg hrr]
              exact hrm
      · have h1 : (startGame svc c b t).1 = svc := by simp [startGame, hc, hroom, hhost]
        rw [h1]
        exact ⟨hkeys, hidx⟩

/-- The room record after `ResetRoom`. -/
def resetRoomRec (room : GameRoom) : GameRoom :=
  { room with
    state := GameState.Waiting, board := blankBoard, gameStartTime := none,
    players := room.players.map (fun kp =>
      (kp.1, { kp.2 with score := 0, foundWords := [], isReady := false })) }

theorem registryInv_resetGame (svc : GameService) (c : String)
    (hinv : RegistryInv svc) : RegistryInv (resetGame svc c).1 := by
  obtain ⟨hkeys, hidx⟩ := hinv
  cases hc : alookup svc.playerRooms c with
  | none =>
    have h1 : (resetGame svc c).1 = svc := by simp [resetGame, hc]
    rw [h1]
    exact ⟨hkeys, hidx⟩
  | some roomId =>
    cases hroom : alookup svc.rooms roomId with
    | none =>
      have h1 : (resetGame svc c).1 = svc := by simp [resetGame, hc, hroom]
      rw [h1]
      exact ⟨hkeys, hidx⟩
    | some room =>
      by_cases hhost : room.hostConnectionId = c
      · have hrid : room.roomId = roomId := hkeys roomId room hroom
        have h1 : (resetGame svc c).1 = resetRoom svc room.roomId := by
          simp [resetGame, hc, hroom, hhost]
        have h2 : resetRoom svc roomId =
            { svc with rooms := aset svc.rooms roomId (resetRoomRec room) } := by
          simp [resetRoom, hroom, resetRoomRec]
        rw [h1, hrid, h2]
        constructor
        · intro k rm hk
          simp only [alookup_aset] at hk
          by_cases hkr : k = roomId
          · rw [if_pos hkr] at hk
            cases hk
            subst hkr
            exact hkeys k room hroom
          · rw [if_neg hkr] at hk
            exact hkeys k rm hk
        · intro cid rid hcr
          obtain ⟨rm, hrm, hp⟩ := hidx cid rid hcr
          by_cases hrr : rid = roomId
          · subst hrr
            rw [hroom] at hrm
            cases hrm
            refine ⟨resetRoomRec room, ?_, ?_⟩
            · simp [alookup_aset]
            · simp only [resetRoomRec, alookup_resetPlayers]
              simpa using hp
          · refine ⟨rm, ?_, hp⟩
            simp only [alookup_aset]
            rw [if_neg hrr]
            exact hrm
      · have h1 : (resetGame svc c).1 = svc := by simp [resetGame, hc, hroom, hhost]
        rw [h1]
        exact ⟨hkeys, hidx⟩

theorem registryInv_submitWord (svc : GameService) (c w : String)
    (hinv : RegistryInv svc) : RegistryInv (submitWord svc c w).1 := by
  obtain ⟨hkeys, hidx⟩ := hinv
  cases hc : alookup svc.playerRooms c with
  | none =>
    have h1 : (submitWord svc c w).1 = svc := by simp [submitWord, hc]
    rw [h1]
    exact ⟨hkeys, hidx⟩
  | some roomId =>
    cases hroom : alookup svc.rooms roomId with
    | none =>
      have h1 : (submitWord svc c w).1 = svc := by simp [submitWord, hc, hroom]
      rw [h1]
      exact ⟨hkeys, hidx⟩
    | some room =>
      by_cases hstate : room.state = GameState.InProgress
      · cases hplayer : alookup room.players c with
        | none =>
          have h1 : (submitWord svc c w).1 = svc := by
            simp [submitWord, hc, hroom, hstate, hplayer]
          rw [h1]
          exact ⟨hkeys, hidx⟩
        | some player =>
          by_cases hfound : player.foundWords.contains (strUpper w) = true
          · have hmem : strUpper w ∈ player.foundWords := by simpa using hfound
            have h1 : (submitWord svc c w).1 = svc := by
              simp [submitWord, hc, hroom, hstate, hplayer, hmem]
            rw [h1]
            exact ⟨hkeys, hidx⟩
          · have hnmem : strUpper w ∉ player.foundWords := by simpa using hfound
            have h1 : (submitWord svc c w).1 =
                { svc with rooms := aset svc.rooms roomId (submittedRoom room c w player) } := by
              simp [submitWord, submittedRoom, submittedPlayer, hc, hroom, hstate,
                    hplayer, hnmem]
            rw [h1]
            constructor
            · intro k rm hk
              simp only [alookup_aset] at hk
              by_cases hkr : k = roomId
              · rw [if_pos hkr] at hk
                cases hk
                subst hkr
                exact hkeys k room hroom
              · rw [if_neg hkr] at hk
                exact hkeys k rm hk
            · intro cid rid hcr
              obtain ⟨rm, hrm, hp⟩ := hidx cid rid hcr
              by_cases hrr : rid = roomId
              · subst hrr
                rw [hroom] at hrm
                cases hrm
                refine ⟨submittedRoom room c w player, ?_, ?_⟩
                · simp [alookup_aset]
                · simp only [submittedRoom, alookup_aset]
                  by_cases hcc : cid = c
                  · rw [if_pos hcc]
                    rfl
                  · rw [if_neg hcc]
                    exact hp
              · refine ⟨rm, ?_, hp⟩
                simp only [alookup_aset]
                rw [if_neg hrr]
                exact hrm
      · have h1 : (submitWord svc c w).1 = svc := by simp [submitWord, hc, hroom, hstate]
        rw [h1]
        exact ⟨hkeys, hidx⟩

theorem registryInv_applyOp (svc : GameService) (op : Op) (hinv : RegistryInv svc)
    (hok : (match op with
            | Op.create _ _ _ g => (alookup svc.rooms g).isNone
            | _ => true) = true) :
    RegistryInv (applyOp svc op) := by
  cases op with
  | create n c u g =>
    simp only [Option.isNone_iff_eq_none] at hok
    exact registryInv_createRoom svc n c u g hok hinv
  | join r c u => exact registryInv_joinRoom svc r c u hinv
  | leave c => exact registryInv_leaveRoom svc c hinv
  | start c b t => exact registryInv_startGame svc c b t hinv
  | reset c => exact registryInv_resetGame svc c hinv
  | submit c w => exact registryInv_submitWord svc c w hinv

/-- Claim C4 (amended): along any collision-free operation sequence from the
empty registry, every indexed session appears in the roster of the (live)
room it is indexed to.  The converse "exactly one roster" direction is false
(see the counterexample): joining or creating a second room leaves the stale
roster entry behind. -/
theorem c4_amended_index_in_roster (ops : List Op)
    (h : validTrace emptyService ops = true) :
    RegistryInv (runOps ops) := by
  suffices hgen : ∀ (l : List Op) (svc : GameService), RegistryInv svc →
      validTrace svc l = true → RegistryInv (l.foldl applyOp svc) by
    refine hgen ops emptyService ⟨?_, ?_⟩ h
    · intro k room hk
      simp [alookup, emptyService] at hk
    · intro cid rid hcr
      simp [alookup, emptyService] at hcr
  intro l
  induction l with
  | nil =>
    intro svc hinv _
    simpa using hinv
  | cons op rest ih =>
    intro svc hinv hv
    simp only [validTrace, Bool.and_eq_true] at hv
    obtain ⟨h1, h2⟩ := hv
    have hstep : RegistryInv (applyOp svc op) := registryInv_applyOp svc op hinv h1
    simpa using ih (applyOp svc op) hstep h2

/-- Witness for the amended C4 on a concrete collision-free trace. -/
theorem c4_amended_index_in_roster_witness :
    validTrace emptyService [Op.create "room" "h1" "ann" "EEEEEE",
                             Op.join "EEEEEE" "m2" "ben"] = true ∧
    RegistryInv (runOps [Op.create "room" "h1" "ann" "EEEEEE",
                         Op.join "EEEEEE" "m2" "ben"]) :=
  ⟨by decide, c4_amended_index_in_roster _ (by decide)⟩
